import Mathlib

/-
  Verification development for the Ditado push-to-talk dictation tool.

  The Python sources are shallowly embedded: Python `str` values are modelled
  as `List Char` (`PyStr`), machine behaviour of the relevant functions in
  `src/input/hotkey.py`, `src/audio/recorder.py`, `src/audio/muter.py`,
  `src/transcription/whisper.py`, `src/transcription/enhancer.py` and
  `src/app.py` is translated into executable Lean definitions, and the
  specification's testable properties are proved (or refuted) about those
  definitions.
-/

/-- Python `str` values are modelled as lists of characters. -/
abbrev PyStr := List Char

/-- Characters removed by Python's default `str.strip()`. -/
def pyIsSpace (c : Char) : Bool :=
  c = ' ' || c = '\t' || c = '\n' || c = '\r' || c = '\x0b' || c = '\x0c'

/-- ASCII uppercase/lowercase pairs, used to model Python `str.lower()`
(the key vocabulary and hotkey tokens are ASCII). -/
def azPairs : List (Char × Char) :=
  [('A','a'), ('B','b'), ('C','c'), ('D','d'), ('E','e'), ('F','f'),
   ('G','g'), ('H','h'), ('I','i'), ('J','j'), ('K','k'), ('L','l'),
   ('M','m'), ('N','n'), ('O','o'), ('P','p'), ('Q','q'), ('R','r'),
   ('S','s'), ('T','t'), ('U','u'), ('V','v'), ('W','w'), ('X','x'),
   ('Y','y'), ('Z','z')]

/-- Lowercase one character (model of Python `str.lower()` per character). -/
def pyLowerChar (c : Char) : Char :=
  match azPairs.find? (fun p => p.1 = c) with
  | some p => p.2
  | none => c

/-- Model of Python `str.lower()`. -/
def pyLower (s : PyStr) : PyStr := s.map pyLowerChar

/-- Model of Python `str.lstrip()`. -/
def trimLeft (s : PyStr) : PyStr := s.dropWhile pyIsSpace

/-- Model of Python `str.rstrip()`, written structurally for easy induction:
a character is kept iff something non-space follows it or it is non-space. -/
def trimRight : PyStr → PyStr
  | [] => []
  | c :: cs =>
    match trimRight cs with
    | [] => if pyIsSpace c then [] else [c]
    | r => c :: r

/-- Model of Python `str.strip()`. -/
def pyStrip (s : PyStr) : PyStr := trimRight (trimLeft s)

/-- Model of Python `str.split(sep)` for a one-character separator:
splits on every occurrence, keeping empty parts. -/
def splitOnChar (sep : Char) : PyStr → List PyStr
  | [] => [[]]
  | c :: rest =>
    match splitOnChar sep rest with
    | [] => [[c]]
    | h :: t => if c = sep then [] :: h :: t else (c :: h) :: t

/-- Word count of a Python string, model of `len(s.split())`:
`split()` with no argument splits on whitespace runs and drops empties. -/
def wcGo : Bool → PyStr → Nat
  | _, [] => 0
  | inWord, c :: rest =>
    if pyIsSpace c then wcGo false rest
    else (if inWord then 0 else 1) + wcGo true rest

/-- `len(text.split())` in Python. -/
def pyWordCount (s : PyStr) : Nat := wcGo false s

/-
  ## src/input/hotkey.py — key model and hotkey string parsing

  pynput keys are either named special keys (`keyboard.Key` enum members,
  pairwise distinct) or `keyboard.KeyCode` values carrying a character.
  A `Key` enum member never compares equal to a `KeyCode`.
-/

/-- Model of a pynput key: a named special key or a character key code. -/
inductive PKey where
  | special (name : String)
  | char (c : Char)
deriving DecidableEq, Repr

/-- `COMBINATION_SEPARATOR = "+"` in hotkey.py. -/
def COMBINATION_SEPARATOR : Char := '+'

/-- `KEY_MAP` from hotkey.py: names of special keys mapped to the pynput
key objects (modelled as `PKey.special` of the same name, reflecting that
the enum members are pairwise distinct). -/
def KEY_MAP : List (String × PKey) :=
  [("caps_lock", .special "caps_lock"),
   ("scroll_lock", .special "scroll_lock"),
   ("pause", .special "pause"),
   ("insert", .special "insert"),
   ("home", .special "home"),
   ("end", .special "end"),
   ("page_up", .special "page_up"),
   ("page_down", .special "page_down"),
   ("f1", .special "f1"),
   ("f2", .special "f2"),
   ("f3", .special "f3"),
   ("f4", .special "f4"),
   ("f5", .special "f5"),
   ("f6", .special "f6"),
   ("f7", .special "f7"),
   ("f8", .special "f8"),
   ("f9", .special "f9"),
   ("f10", .special "f10"),
   ("f11", .special "f11"),
   ("f12", .special "f12"),
   ("ctrl", .special "ctrl"),
   ("ctrl_r", .special "ctrl_r"),
   ("ctrl_l", .special "ctrl_l"),
   ("alt", .special "alt"),
   ("alt_r", .special "alt_r"),
   ("alt_l", .special "alt_l"),
   ("shift", .special "shift"),
   ("shift_r", .special "shift_r"),
   ("shift_l", .special "shift_l"),
   ("space", .special "space"),
   ("tab", .special "tab"),
   ("enter", .special "enter"),
   ("backspace", .special "backspace"),
   ("delete", .special "delete"),
   ("esc", .special "esc"),
   ("cmd", .special "cmd"),
   ("cmd_l", .special "cmd_l"),
   ("cmd_r", .special "cmd_r"),
   ("up", .special "up"),
   ("down", .special "down"),
   ("left", .special "left"),
   ("right", .special "right"),
   ("print_screen", .special "print_screen"),
   ("num_lock", .special "num_lock"),
   ("menu", .special "menu")]

/-- `key_from_string` in hotkey.py: lowercase and strip the token, look it up
in `KEY_MAP`, else accept a single character as a `KeyCode`. -/
def key_from_string (s : PyStr) : Option PKey :=
  let t := pyStrip (pyLower s)
  match KEY_MAP.find? (fun e => e.1.data = t) with
  | some e => some e.2
  | none =>
    match t with
    | [c] => some (PKey.char c)
    | _ => none

/-- `key_to_string` in hotkey.py: reverse-lookup in `KEY_MAP` (first entry
whose value equals the key), else the lowercased character of a `KeyCode`,
else the enum member's name. -/
def key_to_string (k : PKey) : PyStr :=
  match KEY_MAP.find? (fun e => e.2 = k) with
  | some e => e.1.data
  | none =>
    match k with
    | .char c => [pyLowerChar c]
    | .special n => n.data

/-- `parse_hotkey_string` in hotkey.py. -/
def parse_hotkey_string (s : PyStr) : List PKey :=
  let s := pyStrip s
  if COMBINATION_SEPARATOR ∈ s then
    ((splitOnChar COMBINATION_SEPARATOR s).map pyStrip).filterMap key_from_string
  else
    match key_from_string s with
    | some k => [k]
    | none => []

/-- `keys_to_string` in hotkey.py. -/
def keys_to_string (ks : List PKey) : PyStr :=
  match ks with
  | [] => []
  | _ => List.intercalate [COMBINATION_SEPARATOR] (ks.map key_to_string)

example : keys_to_string (parse_hotkey_string (" Ctrl_L + F1 ".data)) = "ctrl_l+f1".data := by decide

/-
  ## Lemmas about the string model (trim / lower / split)
-/

theorem pyIsSpace_sep : pyIsSpace COMBINATION_SEPARATOR = false := by decide

theorem trimLeft_append_cons (a b : PyStr) (c : Char) (hc : pyIsSpace c = false) :
    trimLeft (a ++ c :: b) = trimLeft a ++ c :: b := by
  induction a with
  | nil => simp [trimLeft, List.dropWhile_cons, hc]
  | cons x xs ih =>
    by_cases hx : pyIsSpace x <;>
      simp_all [trimLeft, List.dropWhile_cons]

theorem trimRight_cons (c : Char) (l : PyStr) :
    trimRight (c :: l) = match trimRight l with
      | [] => if pyIsSpace c then [] else [c]
      | r => c :: r := rfl

theorem trimRight_cons_of_not_space (c : Char) (l : PyStr) (hc : pyIsSpace c = false) :
    trimRight (c :: l) = c :: trimRight l := by
  rw [trimRight_cons]
  cases h : trimRight l with
  | nil => simp [hc]
  | cons y ys => rfl

theorem trimRight_append_cons (a b : PyStr) (c : Char) (hc : pyIsSpace c = false) :
    trimRight (a ++ c :: b) = a ++ c :: trimRight b := by
  induction a with
  | nil => simpa using trimRight_cons_of_not_space c b hc
  | cons x xs ih =>
    rw [List.cons_append, trimRight_cons, ih]
    cases hxs : xs ++ c :: trimRight b with
    | nil => simp at hxs
    | cons y ys => simp [hxs]

theorem mem_of_mem_trimLeft {x : Char} {l : PyStr} (h : x ∈ trimLeft l) : x ∈ l := by
  induction l with
  | nil => simpa [trimLeft] using h
  | cons c cs ih =>
    by_cases hc : pyIsSpace c
    · rw [trimLeft, List.dropWhile_cons] at h
      simp only [hc, if_true] at h
      exact List.mem_cons_of_mem _ (ih h)
    · rw [trimLeft, List.dropWhile_cons] at h
      simp only [hc] at h
      simpa using h

theorem mem_of_mem_trimRight {x : Char} {l : PyStr} (h : x ∈ trimRight l) : x ∈ l := by
  induction l with
  | nil => simpa [trimRight] using h
  | cons c cs ih =>
    cases hcs : trimRight cs with
    | nil =>
      rw [trimRight_cons, hcs] at h
      by_cases hsp : pyIsSpace c
      · simp [hsp] at h
      · simp [hsp] at h
        simp [h]
    | cons y ys =>
      rw [trimRight_cons, hcs] at h
      rcases List.mem_cons.mp h with h1 | h2
      · simp [h1]
      · exact List.mem_cons_of_mem _ (ih (hcs ▸ h2))

theorem mem_of_mem_pyStrip {x : Char} {l : PyStr} (h : x ∈ pyStrip l) : x ∈ l :=
  mem_of_mem_trimLeft (mem_of_mem_trimRight h)

theorem pyStrip_sep_decomp (t1 t2 : PyStr) :
    pyStrip (t1 ++ COMBINATION_SEPARATOR :: t2)
      = trimLeft t1 ++ COMBINATION_SEPARATOR :: trimRight t2 := by
  unfold pyStrip
  rw [trimLeft_append_cons _ _ _ pyIsSpace_sep,
      trimRight_append_cons _ _ _ pyIsSpace_sep]

theorem splitOnChar_ne_nil (sep : Char) (l : PyStr) : splitOnChar sep l ≠ [] := by
  cases l with
  | nil => simp [splitOnChar]
  | cons c rest =>
    cases h : splitOnChar sep rest with
    | nil => simp [splitOnChar, h]
    | cons a t => by_cases hc : c = sep <;> simp [splitOnChar, h, hc]

theorem splitOnChar_no_sep (sep : Char) (b : PyStr) (hb : sep ∉ b) :
    splitOnChar sep b = [b] := by
  induction b with
  | nil => rfl
  | cons c rest ih =>
    have hc : ¬ (c = sep) := fun h => hb (h ▸ List.mem_cons_self c rest)
    have hr : sep ∉ rest := fun h => hb (List.mem_cons_of_mem _ h)
    simp [splitOnChar, ih hr, hc]

theorem splitOnChar_append (sep : Char) (a b : PyStr) (ha : sep ∉ a) :
    splitOnChar sep (a ++ sep :: b) = a :: splitOnChar sep b := by
  induction a with
  | nil =>
    cases h : splitOnChar sep b with
    | nil => exact absurd h (splitOnChar_ne_nil sep b)
    | cons x t => simp [splitOnChar, h]
  | cons x xs ih =>
    have hx : ¬ (x = sep) := fun h => ha (h ▸ List.mem_cons_self x xs)
    have hxs : sep ∉ xs := fun h => ha (List.mem_cons_of_mem _ h)
    simp [splitOnChar, ih hxs, hx]

theorem azPairs_no_chain : ∀ p ∈ azPairs, ∀ q ∈ azPairs, ¬ (q.1 = p.2) := by decide

theorem azPairs_no_space : ∀ p ∈ azPairs, pyIsSpace p.1 = false ∧ pyIsSpace p.2 = false := by
  decide

theorem pyLowerChar_idem (c : Char) : pyLowerChar (pyLowerChar c) = pyLowerChar c := by
  cases h : azPairs.find? (fun p => p.1 = c) with
  | none =>
    have hc : pyLowerChar c = c := by unfold pyLowerChar; rw [h]
    rw [hc, hc]
  | some p =>
    have hc : pyLowerChar c = p.2 := by unfold pyLowerChar; rw [h]
    have hmem := List.mem_of_find?_eq_some h
    have hnone : azPairs.find? (fun q => q.1 = p.2) = none := by
      rw [List.find?_eq_none]
      intro q hq
      simpa using azPairs_no_chain p hmem q hq
    rw [hc]
    unfold pyLowerChar
    rw [hnone]

theorem pyIsSpace_pyLowerChar (c : Char) : pyIsSpace (pyLowerChar c) = pyIsSpace c := by
  cases h : azPairs.find? (fun p => p.1 = c) with
  | none =>
    have hc : pyLowerChar c = c := by unfold pyLowerChar; rw [h]
    rw [hc]
  | some p =>
    have hc : pyLowerChar c = p.2 := by unfold pyLowerChar; rw [h]
    have hmem := List.mem_of_find?_eq_some h
    have hp := List.find?_some h
    have hp1 : p.1 = c := by simpa using hp
    rw [hc, (azPairs_no_space p hmem).2, ← hp1, (azPairs_no_space p hmem).1]

theorem trimLeft_pyLower (l : PyStr) : trimLeft (pyLower l) = pyLower (trimLeft l) := by
  induction l with
  | nil => rfl
  | cons c cs ih =>
    by_cases h : pyIsSpace c
    · have h2 : pyIsSpace (pyLowerChar c) = true := by rw [pyIsSpace_pyLowerChar]; exact h
      simp only [pyLower, List.map_cons, trimLeft, List.dropWhile_cons, h2, h, if_true] at *
      exact ih
    · have h2 : pyIsSpace (pyLowerChar c) = false := by
        rw [pyIsSpace_pyLowerChar]; exact Bool.of_not_eq_true h
      simp [pyLower, trimLeft, List.dropWhile_cons, h2, Bool.of_not_eq_true h]

theorem trimRight_pyLower (l : PyStr) : trimRight (pyLower l) = pyLower (trimRight l) := by
  induction l with
  | nil => rfl
  | cons c cs ih =>
    cases hcs : trimRight cs with
    | nil =>
      have h1 : trimRight (pyLower cs) = [] := by rw [ih, hcs]; rfl
      simp only [pyLower, List.map_cons] at *
      rw [trimRight_cons, h1, trimRight_cons, hcs]
      by_cases hsp : pyIsSpace c
      · have h2 : pyIsSpace (pyLowerChar c) = true := by rw [pyIsSpace_pyLowerChar]; exact hsp
        simp [h2, hsp]
      · have h2 : pyIsSpace (pyLowerChar c) = false := by
          rw [pyIsSpace_pyLowerChar]; exact Bool.of_not_eq_true hsp
        simp [h2, Bool.of_not_eq_true hsp]
    | cons y ys =>
      have h1 : trimRight (pyLower cs) = pyLowerChar y :: List.map pyLowerChar ys := by
        rw [ih, hcs]; rfl
      simp only [pyLower, List.map_cons] at *
      rw [trimRight_cons, h1, trimRight_cons, hcs]
      rfl

theorem trimLeft_idem (l : PyStr) : trimLeft (trimLeft l) = trimLeft l := by
  simpa [trimLeft] using List.dropWhile_idempotent (p := pyIsSpace) (l := l)

theorem trimRight_idem (l : PyStr) : trimRight (trimRight l) = trimRight l := by
  induction l with
  | nil => rfl
  | cons c cs ih =>
    cases hcs : trimRight cs with
    | nil =>
      rw [trimRight_cons, hcs]
      by_cases hsp : pyIsSpace c
      · simp [hsp, trimRight]
      · simp [hsp, trimRight]
    | cons y ys =>
      rw [trimRight_cons, hcs]
      have hr : trimRight (y :: ys) = y :: ys := by rw [← hcs] at *; exact ih
      rw [trimRight_cons, hr]

theorem trimLeft_trimRight_comm (l : PyStr) :
    trimLeft (trimRight l) = trimRight (trimLeft l) := by
  induction l with
  | nil => rfl
  | cons c cs ih =>
    by_cases hsp : pyIsSpace c
    · have hL : trimLeft (c :: cs) = trimLeft cs := by
        simp [trimLeft, List.dropWhile_cons, hsp]
      cases hcs : trimRight cs with
      | nil =>
        rw [trimRight_cons, hcs, hL, ← ih, hcs]
        simp [hsp, trimLeft]
      | cons y ys =>
        rw [trimRight_cons, hcs, hL, ← ih, hcs]
        simp [trimLeft, List.dropWhile_cons, hsp]
    · have hc : pyIsSpace c = false := Bool.of_not_eq_true hsp
      have hL : trimLeft (c :: cs) = c :: cs := by
        simp [trimLeft, List.dropWhile_cons, hc]
      rw [hL]
      cases hcs : trimRight cs with
      | nil =>
        rw [trimRight_cons, hcs]
        simp [hc, trimLeft, List.dropWhile_cons, trimRight_cons, hcs]
      | cons y ys =>
        rw [trimRight_cons, hcs]
        simp [trimLeft, List.dropWhile_cons, hc]

theorem pyStrip_trimLeft (l : PyStr) : pyStrip (trimLeft l) = pyStrip l := by
  unfold pyStrip
  rw [trimLeft_idem]

theorem pyStrip_trimRight (l : PyStr) : pyStrip (trimRight l) = pyStrip l := by
  unfold pyStrip
  rw [trimLeft_trimRight_comm, trimRight_idem]

theorem pyLower_pyStrip (l : PyStr) : pyLower (pyStrip l) = pyStrip (pyLower l) := by
  unfold pyStrip
  rw [trimLeft_pyLower, trimRight_pyLower]

theorem pyStrip_pyStrip (l : PyStr) : pyStrip (pyStrip l) = pyStrip l := by
  unfold pyStrip
  rw [trimLeft_trimRight_comm, trimLeft_idem, trimRight_idem]

theorem canon_strip_trimLeft (t : PyStr) :
    pyStrip (pyLower (pyStrip (trimLeft t))) = pyStrip (pyLower t) := by
  rw [pyLower_pyStrip, pyStrip_pyStrip, ← trimLeft_pyLower, pyStrip_trimLeft]

theorem canon_strip_trimRight (t : PyStr) :
    pyStrip (pyLower (pyStrip (trimRight t))) = pyStrip (pyLower t) := by
  rw [pyLower_pyStrip, pyStrip_pyStrip, ← trimRight_pyLower, pyStrip_trimRight]

theorem key_from_string_pyStrip_trimLeft (t : PyStr) :
    key_from_string (pyStrip (trimLeft t)) = key_from_string t := by
  unfold key_from_string
  rw [canon_strip_trimLeft]

theorem key_from_string_pyStrip_trimRight (t : PyStr) :
    key_from_string (pyStrip (trimRight t)) = key_from_string t := by
  unfold key_from_string
  rw [canon_strip_trimRight]

theorem KEY_MAP_canonical : ∀ e ∈ KEY_MAP, e.2 = PKey.special e.1 := by decide

theorem mem_pyLower_fixed {c : Char} {s : PyStr} (h : c ∈ pyLower s) :
    pyLowerChar c = c := by
  rcases List.mem_map.mp h with ⟨c0, _, rfl⟩
  exact pyLowerChar_idem c0

/-- Rendering the key parsed from a token reproduces the token's canonical
(lowercased, stripped) form. -/
theorem key_to_string_key_from_string (t : PyStr) (k : PKey)
    (h : key_from_string t = some k) :
    key_to_string k = pyStrip (pyLower t) := by
  unfold key_from_string at h
  dsimp only at h
  split at h
  case _ e hf =>
    simp only [Option.some.injEq] at h
    subst h
    have hmem := List.mem_of_find?_eq_some hf
    have hpred : e.1.data = pyStrip (pyLower t) := by simpa using List.find?_some hf
    unfold key_to_string
    cases hg : KEY_MAP.find? (fun x => x.2 = e.2) with
    | none =>
      rw [List.find?_eq_none] at hg
      exact absurd (by simp) (hg e hmem)
    | some e2 =>
      have hmem2 := List.mem_of_find?_eq_some hg
      have hpred2 : e2.2 = e.2 := by simpa using List.find?_some hg
      have he : e.2 = PKey.special e.1 := KEY_MAP_canonical e hmem
      have he2 : e2.2 = PKey.special e2.1 := KEY_MAP_canonical e2 hmem2
      have h21 : e2.1 = e.1 := by
        have h0 := hpred2
        rw [he, he2] at h0
        exact PKey.special.inj h0
      show e2.1.data = pyStrip (pyLower t)
      rw [h21, hpred]
  case _ hf =>
    split at h
    case _ c ht =>
      simp only [Option.some.injEq] at h
      subst h
      have hcl : pyLowerChar c = c := by
        have hc : c ∈ pyStrip (pyLower t) := by rw [ht]; exact List.mem_cons_self c []
        exact mem_pyLower_fixed (mem_of_mem_pyStrip hc)
      unfold key_to_string
      have hg : KEY_MAP.find? (fun x => x.2 = PKey.char c) = none := by
        rw [List.find?_eq_none]
        intro x hx
        rw [KEY_MAP_canonical x hx]
        simp
      rw [hg, ht]
      show [pyLowerChar c] = [c]
      rw [hcl]
    case _ =>
      simp at h

/-- C9: For every well-formed two-token hotkey specification string (two known
key tokens joined by the separator, in any letter case, with optional
surrounding whitespace per token), rendering the parsed key list back to its
machine-readable joined form yields the canonical form of the input: the same
tokens in the same order, lowercased and trimmed. -/
theorem hotkey_parse_render_roundtrip (t1 t2 : PyStr) (k1 k2 : PKey)
    (h1 : key_from_string t1 = some k1) (h2 : key_from_string t2 = some k2)
    (n1 : COMBINATION_SEPARATOR ∉ t1) (n2 : COMBINATION_SEPARATOR ∉ t2) :
    keys_to_string (parse_hotkey_string (t1 ++ COMBINATION_SEPARATOR :: t2))
      = pyStrip (pyLower t1) ++ COMBINATION_SEPARATOR :: pyStrip (pyLower t2) := by
  have hn1 : COMBINATION_SEPARATOR ∉ trimLeft t1 :=
    fun h => n1 (mem_of_mem_trimLeft h)
  have hn2 : COMBINATION_SEPARATOR ∉ trimRight t2 :=
    fun h => n2 (mem_of_mem_trimRight h)
  have hD := pyStrip_sep_decomp t1 t2
  have hp : parse_hotkey_string (t1 ++ COMBINATION_SEPARATOR :: t2) = [k1, k2] := by
    unfold parse_hotkey_string
    dsimp only
    rw [hD]
    rw [if_pos (by simp : COMBINATION_SEPARATOR ∈ trimLeft t1 ++ COMBINATION_SEPARATOR :: trimRight t2)]
    rw [splitOnChar_append _ _ _ hn1, splitOnChar_no_sep _ _ hn2]
    simp only [List.map_cons, List.map_nil, List.filterMap_cons, List.filterMap_nil,
      key_from_string_pyStrip_trimLeft, key_from_string_pyStrip_trimRight, h1, h2]
  rw [hp]
  have hkts : keys_to_string [k1, k2]
      = key_to_string k1 ++ COMBINATION_SEPARATOR :: key_to_string k2 := by
    show List.intercalate [COMBINATION_SEPARATOR]
        (List.map key_to_string [k1, k2]) = _
    simp [List.intercalate, List.intersperse]
  rw [hkts, key_to_string_key_from_string t1 k1 h1,
    key_to_string_key_from_string t2 k2 h2]

/-- Witness for C9 at the concrete spec string " Ctrl_L " + "F1 ". -/
theorem hotkey_parse_render_roundtrip_witness :
    keys_to_string (parse_hotkey_string (" Ctrl_L ".data ++ COMBINATION_SEPARATOR :: "F1 ".data))
      = pyStrip (pyLower " Ctrl_L ".data) ++ COMBINATION_SEPARATOR :: pyStrip (pyLower "F1 ".data) :=
  hotkey_parse_render_roundtrip " Ctrl_L ".data "F1 ".data
    (PKey.special "ctrl_l") (PKey.special "f1")
    (by decide) (by decide) (by decide) (by decide)

/-
  ## src/input/hotkey.py — HotkeyListener state machine

  `_handle_press` / `_handle_release` run under the listener's lock, so the
  event stream is serialized; the machine is modelled as a pure step function
  from a state and a key event to a new state plus the callbacks fired.
-/

/-- Mutable state of `HotkeyListener`. -/
structure ListenerState where
  requiredKeys : List PKey
  pressedKeys : List PKey
  isActive : Bool
  enabled : Bool
deriving Repr, DecidableEq

/-- Activation / deactivation callback firings. -/
inductive Edge where
  | activate
  | deactivate
deriving DecidableEq, Repr

/-- `_key_matches_required`: exact match, or case-insensitive match for
character keys; returns the matched required key. -/
def keyMatchesRequired (required : List PKey) (k : PKey) : Option PKey :=
  required.find? (fun req =>
    k = req ||
      (match k, req with
       | PKey.char c, PKey.char d => pyLowerChar c = pyLowerChar d
       | _, _ => false))

/-- `_all_required_keys_pressed`. -/
def allRequiredKeysPressed (required pressed : List PKey) : Bool :=
  !required.isEmpty && required.all (fun r => pressed.contains r)

/-- `_handle_press`: returns the updated state and the callbacks fired. -/
def handlePress (s : ListenerState) (k : PKey) : ListenerState × List Edge :=
  if !s.enabled then (s, [])
  else
    match keyMatchesRequired s.requiredKeys k with
    | none => (s, [])
    | some m =>
      let pressed := if s.pressedKeys.contains m then s.pressedKeys else m :: s.pressedKeys
      if !s.isActive && allRequiredKeysPressed s.requiredKeys pressed then
        ({ s with pressedKeys := pressed, isActive := true }, [Edge.activate])
      else ({ s with pressedKeys := pressed }, [])

/-- `_handle_release`: returns the updated state and the callbacks fired. -/
def handleRelease (s : ListenerState) (k : PKey) : ListenerState × List Edge :=
  if !s.enabled then (s, [])
  else
    match keyMatchesRequired s.requiredKeys k with
    | none => (s, [])
    | some m =>
      if s.isActive then
        ({ s with pressedKeys := s.pressedKeys.erase m, isActive := false },
          [Edge.deactivate])
      else ({ s with pressedKeys := s.pressedKeys.erase m }, [])

/-- A raw key event delivered by the OS hook. -/
inductive KeyEvent where
  | press (k : PKey)
  | release (k : PKey)
deriving DecidableEq, Repr

def handleEvent (s : ListenerState) : KeyEvent → ListenerState × List Edge
  | .press k => handlePress s k
  | .release k => handleRelease s k

/-- Run a serialized sequence of key events, collecting fired callbacks. -/
def runEvents (s : ListenerState) : List KeyEvent → ListenerState × List Edge
  | [] => (s, [])
  | e :: rest =>
    let p := handleEvent s e
    let q := runEvents p.1 rest
    (q.1, p.2 ++ q.2)

/-- Fired edges alternate: starting from activity flag `a`, an activation may
fire only when inactive and a deactivation only when active. -/
def edgesAlternate : Bool → List Edge → Bool
  | _, [] => true
  | false, Edge.activate :: r => edgesAlternate true r
  | true, Edge.deactivate :: r => edgesAlternate false r
  | _, _ => false

theorem handleEvent_step (s : ListenerState) (e : KeyEvent) :
    (handleEvent s e).2 = [] ∧ (handleEvent s e).1.isActive = s.isActive
    ∨ (handleEvent s e).2 = [Edge.activate] ∧ s.isActive = false
        ∧ (handleEvent s e).1.isActive = true
    ∨ (handleEvent s e).2 = [Edge.deactivate] ∧ s.isActive = true
        ∧ (handleEvent s e).1.isActive = false := by
  cases e with
  | press k =>
    unfold handleEvent handlePress
    by_cases hen : s.enabled
    · simp only [hen, Bool.not_true]
      cases hm : keyMatchesRequired s.requiredKeys k with
      | none => simp
      | some m =>
        by_cases ha : s.isActive
        · simp [ha]
        · simp only [Bool.not_eq_true] at ha
          simp only [ha, Bool.not_false, Bool.true_and]
          by_cases hall : allRequiredKeysPressed s.requiredKeys
              (if s.pressedKeys.contains m then s.pressedKeys else m :: s.pressedKeys)
          · simp only [hall, if_true]
            simp [ha]
          · simp only [hall, Bool.false_eq_true, if_false]
            simp [ha]
    · simp [Bool.of_not_eq_true hen]
  | release k =>
    unfold handleEvent handleRelease
    by_cases hen : s.enabled
    · simp only [hen, Bool.not_true]
      cases hm : keyMatchesRequired s.requiredKeys k with
      | none => simp
      | some m =>
        by_cases ha : s.isActive
        · simp [ha]
        · simp [ha]
    · simp [Bool.of_not_eq_true hen]

theorem runEvents_alternate (events : List KeyEvent) :
    ∀ s : ListenerState,
      edgesAlternate s.isActive (runEvents s events).2 = true := by
  induction events with
  | nil => intro s; cases s.isActive <;> rfl
  | cons e rest ih =>
    intro s
    show edgesAlternate s.isActive
      (((handleEvent s e).2) ++ (runEvents (handleEvent s e).1 rest).2) = true
    rcases handleEvent_step s e with ⟨h1, h2⟩ | ⟨h1, h2, h3⟩ | ⟨h1, h2, h3⟩
    · rw [h1, List.nil_append]
      have hrec := ih (handleEvent s e).1
      rw [h2] at hrec
      exact hrec
    · rw [h1, h2, List.cons_append, List.nil_append]
      show edgesAlternate true (runEvents (handleEvent s e).1 rest).2 = true
      have hrec := ih (handleEvent s e).1
      rw [h3] at hrec
      exact hrec
    · rw [h1, h2, List.cons_append, List.nil_append]
      show edgesAlternate false (runEvents (handleEvent s e).1 rest).2 = true
      have hrec := ih (handleEvent s e).1
      rw [h3] at hrec
      exact hrec

/-- C3: For every sequence of key press/release events the hotkey state
machine's fired callbacks strictly alternate between activation and
deactivation (hence at most one activation fires per continuous span during
which all required keys are held, and at most one deactivation per such
span); moreover the deactivation callback fires as soon as any single
matching required key is released while active (regardless of the other
required keys still being pressed), and a press never fires a deactivation. -/
theorem hotkey_edges_per_span :
    (∀ (events : List KeyEvent) (s : ListenerState),
        edgesAlternate s.isActive (runEvents s events).2 = true)
    ∧ (∀ (s : ListenerState) (k m : PKey),
        s.enabled = true → s.isActive = true →
        keyMatchesRequired s.requiredKeys k = some m →
        (handleRelease s k).2 = [Edge.deactivate]
          ∧ (handleRelease s k).1.isActive = false)
    ∧ (∀ (s : ListenerState) (k : PKey),
        (handlePress s k).2 = [] ∨ (handlePress s k).2 = [Edge.activate]) := by
  refine ⟨fun events s => runEvents_alternate events s, ?_, ?_⟩
  · intro s k m hen hact hm
    unfold handleRelease
    rw [hen, hm]
    simp [hact]
  · intro s k
    unfold handlePress
    by_cases hen : s.enabled
    · simp only [hen, Bool.not_true]
      cases hm : keyMatchesRequired s.requiredKeys k with
      | none => simp
      | some m =>
        by_cases hc : s.isActive = false ∧ allRequiredKeysPressed s.requiredKeys
            (if m ∈ s.pressedKeys then s.pressedKeys else m :: s.pressedKeys) = true
        · simp [hc.1, hc.2]
        · simp [hc]
    · simp [Bool.of_not_eq_true hen]

/-- Witness for C3: with hotkey ctrl_l+f1, pressing both keys then releasing
only f1 (ctrl_l still held) runs with alternating edges, and a release of f1
alone from the active two-key state fires exactly one deactivation. -/
theorem hotkey_edges_per_span_witness :
    edgesAlternate false
      (runEvents
        { requiredKeys := [PKey.special "ctrl_l", PKey.special "f1"],
          pressedKeys := [], isActive := false, enabled := true }
        [KeyEvent.press (PKey.special "ctrl_l"), KeyEvent.press (PKey.special "f1"),
         KeyEvent.release (PKey.special "f1")]).2 = true
    ∧ (handleRelease
        { requiredKeys := [PKey.special "ctrl_l", PKey.special "f1"],
          pressedKeys := [PKey.special "f1", PKey.special "ctrl_l"],
          isActive := true, enabled := true } (PKey.special "f1")).2
        = [Edge.deactivate] :=
  ⟨hotkey_edges_per_span.1
      [KeyEvent.press (PKey.special "ctrl_l"), KeyEvent.press (PKey.special "f1"),
       KeyEvent.release (PKey.special "f1")]
      { requiredKeys := [PKey.special "ctrl_l", PKey.special "f1"],
        pressedKeys := [], isActive := false, enabled := true },
    (hotkey_edges_per_span.2.1
      { requiredKeys := [PKey.special "ctrl_l", PKey.special "f1"],
        pressedKeys := [PKey.special "f1", PKey.special "ctrl_l"],
        isActive := true, enabled := true }
      (PKey.special "f1") (PKey.special "f1")
      rfl rfl (by decide)).1⟩

/-
  ## src/app.py — retry configuration and retry loop shape
-/

/-- `MAX_RETRIES = 3` in app.py. -/
def MAX_RETRIES : Nat := 3

/-- `RETRY_DELAYS = [1, 2, 4]` in app.py (seconds). -/
def RETRY_DELAYS : List Nat := [1, 2, 4]

/-- The `for attempt in range(maxAttempts)` retry loop used by app.py for both
remote stages: `script` gives each attempt's outcome (`none` = the call
raised), entries beyond the script also raise.  Returns the successful result
(if any), the number of attempts actually made, and the delays slept between
attempts (`delays[attempt]` is slept only when the attempt failed and further
attempts remain). -/
def retryLoop (script : List (Option α)) (delays : List Nat) :
    List Nat → Option α × Nat × List Nat
  | [] => (none, 0, [])
  | attempt :: rest =>
    match script.getD attempt none with
    | some a => (some a, 1, [])
    | none =>
      if rest.isEmpty then (none, 1, [])
      else
        let q := retryLoop script delays rest
        (q.1, q.2.1 + 1, delays.getD attempt 0 :: q.2.2)

def retryRun (script : List (Option α)) (maxAttempts : Nat) (delays : List Nat) :
    Option α × Nat × List Nat :=
  retryLoop script delays (List.range maxAttempts)

theorem retryLoop_attempts_le (script : List (Option α)) (delays : List Nat) :
    ∀ attempts : List Nat,
      (retryLoop script delays attempts).2.1 ≤ attempts.length := by
  intro attempts
  induction attempts with
  | nil => simp [retryLoop]
  | cons a rest ih =>
    unfold retryLoop
    cases h : script.getD a none with
    | some v => simp
    | none =>
      by_cases hr : rest.isEmpty
      · simp [hr]
      · simp only [hr, Bool.false_eq_true, if_false, List.length_cons]
        omega

theorem retryRun_attempts_le (script : List (Option α)) (maxAttempts : Nat)
    (delays : List Nat) : (retryRun script maxAttempts delays).2.1 ≤ maxAttempts := by
  have := retryLoop_attempts_le script delays (List.range maxAttempts)
  simpa using this

theorem getD_none_of_all_none {script : List (Option α)}
    (h : ∀ x ∈ script, x = none) (i : Nat) : script.getD i none = none := by
  induction script generalizing i with
  | nil => simp [List.getD]
  | cons a l ih =>
    cases i with
    | zero =>
      have := h a (List.mem_cons_self a l)
      simpa [List.getD] using this
    | succ n =>
      have := ih (fun x hx => h x (List.mem_cons_of_mem _ hx)) n
      simpa [List.getD] using this

theorem retryLoop_all_none {script : List (Option α)} {delays : List Nat}
    (h : ∀ x ∈ script, x = none) :
    ∀ attempts : List Nat, (retryLoop script delays attempts).1 = none := by
  intro attempts
  induction attempts with
  | nil => simp [retryLoop]
  | cons a rest ih =>
    unfold retryLoop
    rw [getD_none_of_all_none h a]
    by_cases hr : rest.isEmpty
    · simp [hr]
    · simp only [hr, Bool.false_eq_true, if_false]
      exact ih

theorem retryRun_all_none {script : List (Option α)} {delays : List Nat}
    (h : ∀ x ∈ script, x = none) (maxAttempts : Nat) :
    (retryRun script maxAttempts delays).1 = none :=
  retryLoop_all_none h (List.range maxAttempts)

/-- An all-failing script exhausts exactly the 3 attempts of the budget and
sleeps only the two inter-attempt delays (1s then 2s) — no delay follows the
final failure. -/
theorem retryRun_all_none_budget {script : List (Option α)}
    (h : ∀ x ∈ script, x = none) :
    retryRun script MAX_RETRIES RETRY_DELAYS = (none, 3, [1, 2]) := by
  have h0 := getD_none_of_all_none h 0
  have h1 := getD_none_of_all_none h 1
  have h2 := getD_none_of_all_none h 2
  simp only [List.getD_eq_getElem?_getD] at h0 h1 h2
  show retryLoop script RETRY_DELAYS (List.range 3) = (none, 3, [1, 2])
  rw [show List.range 3 = [0, 1, 2] from rfl]
  simp [retryLoop, h0, h1, h2, RETRY_DELAYS]

/-
  ## src/transcription/whisper.py — WhisperTranscriber.transcribe
-/

/-- The OpenAI client error classes caught by the transcriber/enhancer. -/
inductive ApiError where
  | authentication
  | rateLimit
  | connection
  | api (msg : PyStr)
  | other (msg : PyStr)
deriving DecidableEq, Repr

/-- `WhisperTranscriber.transcribe`, with the network call abstracted as its
outcome.  Every failure class — `AuthenticationError` included — is re-raised
as the single `TranscriptionError` exception type (carrying only a message);
on success the response text is stripped and the duration converted from
seconds to minutes. -/
def transcribe (call : Except ApiError (PyStr × ℚ)) : Except PyStr (PyStr × ℚ) :=
  match call with
  | .ok (text, duration) => .ok (pyStrip text, duration / 60)
  | .error .authentication => .error "Invalid API key. Please check your settings.".data
  | .error .rateLimit => .error "Rate limit exceeded. Please wait and try again.".data
  | .error .connection => .error "Network error. Please check your connection.".data
  | .error (.api m) => .error ("API error: ".data ++ m)
  | .error (.other m) => .error ("Transcription failed: ".data ++ m)

/-- The transcription stage of `DitadoApp._process_audio_inner`: the loop
catches `TranscriptionError` — hence retries on every failure class. -/
def transcribeStage (calls : List (Except ApiError (PyStr × ℚ))) :
    Option (PyStr × ℚ) × Nat × List Nat :=
  retryRun (calls.map (fun c => (transcribe c).toOption)) MAX_RETRIES RETRY_DELAYS

/-- C2 counterexample: a transcription call that fails with an authentication
error on attempt 1 IS retried — the loop sleeps 1s and makes a second attempt
(which here succeeds) instead of reporting immediately after one attempt. -/
theorem auth_error_retried_counterexample :
    (transcribeStage [Except.error ApiError.authentication,
        Except.ok ("hi".data, 60)]).2.1 = 2
    ∧ (transcribeStage [Except.error ApiError.authentication,
        Except.ok ("hi".data, 60)]).1 = some ("hi".data, 1)
    ∧ (transcribeStage [Except.error ApiError.authentication,
        Except.ok ("hi".data, 60)]).2.2 = [1] := by
  refine ⟨rfl, ?_, rfl⟩
  show some (pyStrip "hi".data, (60 : ℚ) / 60) = some ("hi".data, 1)
  have h1 : pyStrip "hi".data = "hi".data := by decide
  rw [h1]
  norm_num

/-- C2 amended: the transcriber collapses every API error class (network,
rate-limit, generic API, and also authentication) into one retryable
`TranscriptionError`, and the pipeline retries each of them uniformly under
the bounded attempt budget: a first-attempt failure of ANY class is followed
by a 1s delay and a second attempt. -/
theorem transcription_all_error_classes_retried (e : ApiError) (x : PyStr × ℚ)
    (rest : List (Except ApiError (PyStr × ℚ))) :
    (transcribeStage (Except.error e :: Except.ok x :: rest)).2.1 = 2
    ∧ (transcribeStage (Except.error e :: Except.ok x :: rest)).1
        = some (pyStrip x.1, x.2 / 60)
    ∧ (transcribeStage (Except.error e :: Except.ok x :: rest)).2.2 = [1] := by
  obtain ⟨x1, x2⟩ := x
  cases e <;> exact ⟨rfl, rfl, rfl⟩

/-
  ## Word count lemmas (Python `len(s.split())` ignores surrounding space)
-/

theorem wcGo_all_space {l : PyStr} (h : ∀ x ∈ l, pyIsSpace x = true) :
    ∀ b, wcGo b l = 0 := by
  induction l with
  | nil => intro b; rfl
  | cons c cs ih =>
    intro b
    have hc := h c (List.mem_cons_self c cs)
    simp only [wcGo, hc, if_true]
    exact ih (fun x hx => h x (List.mem_cons_of_mem _ hx)) false

theorem trimRight_eq_nil {l : PyStr} (h : trimRight l = []) :
    ∀ x ∈ l, pyIsSpace x = true := by
  induction l with
  | nil => simp
  | cons c cs ih =>
    rw [trimRight_cons] at h
    cases hcs : trimRight cs with
    | nil =>
      rw [hcs] at h
      by_cases hsp : pyIsSpace c
      · intro x hx
        rcases List.mem_cons.mp hx with rfl | hx2
        · exact hsp
        · exact ih hcs x hx2
      · simp [hsp] at h
    | cons y ys => rw [hcs] at h; simp at h

theorem wcGo_trimLeft (l : PyStr) : wcGo false (trimLeft l) = wcGo false l := by
  induction l with
  | nil => rfl
  | cons c cs ih =>
    by_cases hsp : pyIsSpace c
    · simp only [trimLeft, List.dropWhile_cons, hsp, if_true, wcGo]
      exact ih
    · have hc : pyIsSpace c = false := Bool.of_not_eq_true hsp
      simp [trimLeft, List.dropWhile_cons, hc]

theorem trimRight_cons_of_ne_nil (c : Char) (l : PyStr) (h : trimRight l ≠ []) :
    trimRight (c :: l) = c :: trimRight l := by
  rw [trimRight_cons]
  cases hl : trimRight l with
  | nil => exact absurd hl h
  | cons y ys => rfl

theorem wcGo_trimRight (l : PyStr) : ∀ b, wcGo b (trimRight l) = wcGo b l := by
  induction l with
  | nil => intro b; rfl
  | cons c cs ih =>
    intro b
    cases hcs : trimRight cs with
    | nil =>
      have hall : ∀ x ∈ cs, pyIsSpace x = true := trimRight_eq_nil hcs
      rw [trimRight_cons, hcs]
      show wcGo b (if pyIsSpace c then [] else [c]) = wcGo b (c :: cs)
      by_cases hsp : pyIsSpace c
      · rw [if_pos hsp]
        show (0 : Nat) = wcGo b (c :: cs)
        simp only [wcGo, hsp, if_true]
        exact (wcGo_all_space hall false).symm
      · rw [if_neg hsp]
        have hc : pyIsSpace c = false := Bool.of_not_eq_true hsp
        show wcGo b (c :: ([] : PyStr)) = wcGo b (c :: cs)
        simp only [wcGo, hc, Bool.false_eq_true, if_false]
        rw [wcGo_all_space hall true]
    | cons y ys =>
      have hne : trimRight cs ≠ [] := by rw [hcs]; simp
      rw [trimRight_cons_of_ne_nil c cs hne]
      by_cases hsp : pyIsSpace c
      · simp only [wcGo, hsp, if_true]
        exact ih false
      · simp only [wcGo, hsp, Bool.false_eq_true, if_false]
        rw [ih true]

theorem pyWordCount_pyStrip (l : PyStr) : pyWordCount (pyStrip l) = pyWordCount l := by
  unfold pyWordCount pyStrip
  rw [wcGo_trimRight, wcGo_trimLeft]

/-
  ## src/transcription/enhancer.py — TextEnhancer.enhance
-/

/-- `TextEnhancer.enhance`, with the chat-completion call abstracted as its
outcome (`Except.ok reply` = the model's reply content, `Except.error` = the
OpenAI client raised).  Returns the enhance() result — or the
`EnhancementError` message it raises — together with whether the API was
called at all. -/
def enhance (text : PyStr) (call : Except ApiError PyStr) :
    Except PyStr PyStr × Bool :=
  if pyWordCount text ≤ 1 then (.ok text, false)
  else
    match call with
    | .error .authentication =>
        (.error "Invalid API key. Please check your settings.".data, true)
    | .error .rateLimit =>
        (.error "Rate limit exceeded. Please wait and try again.".data, true)
    | .error .connection =>
        (.error "Network error. Please check your connection.".data, true)
    | .error (.api m) => (.error ("API error: ".data ++ m), true)
    | .error (.other m) => (.error ("Enhancement failed: ".data ++ m), true)
    | .ok reply =>
      let enhanced := pyStrip reply
      let ow := pyWordCount text
      let ew := pyWordCount enhanced
      if ew > ow * 3 ∨ ((ew : ℚ) < (ow : ℚ) * (3 / 10)) then (.ok text, true)
      else (.ok enhanced, true)

/-- C10: for an input of more than one word, a reply whose word count exceeds
3× or falls below 0.3× the input's word count is discarded — enhance()
returns the original text without raising; an input of at most one word is
returned unchanged without any API call. -/
theorem enhance_sanity_guardrails :
    (∀ (text reply : PyStr), 1 < pyWordCount text →
      (pyWordCount reply > pyWordCount text * 3
        ∨ ((pyWordCount reply : ℚ) < (pyWordCount text : ℚ) * (3 / 10))) →
      enhance text (.ok reply) = (.ok text, true))
    ∧ (∀ (text : PyStr) (call : Except ApiError PyStr),
        pyWordCount text ≤ 1 → enhance text call = (.ok text, false)) := by
  constructor
  · intro text reply hlong hbad
    unfold enhance
    rw [if_neg (by omega)]
    dsimp only
    rw [if_pos]
    rw [pyWordCount_pyStrip]
    exact hbad
  · intro text call hshort
    unfold enhance
    rw [if_pos hshort]

/-- Witness for C10 at concrete inputs: a 7-word reply for a 2-word input is
discarded; a 1-word input skips the API call. -/
theorem enhance_sanity_guardrails_witness :
    enhance "hello world".data (.ok "a b c d e f g".data)
      = (.ok "hello world".data, true)
    ∧ enhance "hi".data (.error ApiError.authentication)
      = (.ok "hi".data, false) :=
  ⟨enhance_sanity_guardrails.1 "hello world".data "a b c d e f g".data
      (by decide) (Or.inl (by decide)),
   enhance_sanity_guardrails.2 "hi".data (.error ApiError.authentication)
      (by decide)⟩

/-
  ## src/audio/recorder.py — AudioRecorder
-/

/-- `SAMPLE_RATE = 16000`. -/
def SAMPLE_RATE : Nat := 16000

/-- `MIN_AUDIO_LEVEL = 0.001`. -/
def MIN_AUDIO_LEVEL : ℚ := 1 / 1000

/-- `int(0.5 * SAMPLE_RATE)` — the minimum sample count in `stop()`. -/
def MIN_SAMPLES : Nat := 8000

/-- State of `AudioRecorder`: the `_recording` flag, the int16 sample chunks
appended by the audio callback, and `_error`. -/
structure RecorderState where
  recording : Bool
  audioData : List (List Int)
  errorMsg : Option String
deriving Repr, DecidableEq

/-- numpy absolute value on int16: |-32768| overflows back to -32768. -/
def absI16 (x : Int) : Int := if x = -32768 then x else |x|

/-- `np.abs(audio).mean() / 32768.0` over the int16 samples. -/
def avgLevel (audio : List Int) : ℚ :=
  (((audio.map absI16).sum : ℚ) / (audio.length : ℚ)) / 32768

/-- `AudioRecorder.stop`: returns the payload (modelled as the concatenated
samples that would be WAV-encoded) or nothing, plus the updated state. -/
def recorderStop (s : RecorderState) : Option (List Int) × RecorderState :=
  if !s.recording then (none, s)
  else
    let s1 := { s with recording := false }
    if s1.audioData.isEmpty then
      (none, { s1 with errorMsg := some "No audio data captured" })
    else
      let audio := s1.audioData.flatten
      if audio.length < MIN_SAMPLES then
        (none, { s1 with errorMsg := some "Recording too short" })
      else if avgLevel audio < MIN_AUDIO_LEVEL then
        (none, { s1 with errorMsg := some "Recording appears to be silent" })
      else (some audio, s1)

/-- `AudioRecorder.get_duration`: total captured samples / sample rate. -/
def recorderDuration (s : RecorderState) : ℚ :=
  if s.audioData.isEmpty then 0
  else ((s.audioData.map List.length).sum : ℚ) / (SAMPLE_RATE : ℚ)

theorem recorderStop_short (s : RecorderState)
    (h : recorderDuration s < 1 / 2) : (recorderStop s).1 = none := by
  unfold recorderStop
  by_cases hr : s.recording
  · simp only [hr, Bool.not_true, Bool.false_eq_true, if_false]
    by_cases he : s.audioData.isEmpty
    · simp [he]
    · simp only [he, Bool.false_eq_true, if_false]
      have hlen : (List.map List.length s.audioData).sum < MIN_SAMPLES := by
        unfold recorderDuration at h
        rw [if_neg he] at h
        have hsum : ((s.audioData.map List.length).sum : ℚ)
            < (SAMPLE_RATE : ℚ) * (1 / 2) := by
          rw [div_lt_iff₀ (by norm_num [SAMPLE_RATE])] at h
          linarith
        have hq : ((s.audioData.map List.length).sum : ℚ) < (MIN_SAMPLES : ℚ) := by
          norm_num [SAMPLE_RATE, MIN_SAMPLES] at hsum ⊢
          exact_mod_cast hsum
        exact_mod_cast hq
      simp [hlen]
  · simp [Bool.of_not_eq_true hr]

theorem recorderStop_silent (s : RecorderState)
    (h : avgLevel s.audioData.flatten < MIN_AUDIO_LEVEL) :
    (recorderStop s).1 = none := by
  unfold recorderStop
  by_cases hr : s.recording
  · simp only [hr, Bool.not_true, Bool.false_eq_true, if_false]
    by_cases he : s.audioData.isEmpty
    · simp [he]
    · simp only [he, Bool.false_eq_true, if_false]
      by_cases hl : (List.map List.length s.audioData).sum < MIN_SAMPLES
      · simp [hl]
      · simp [hl, h]
  · simp [Bool.of_not_eq_true hr]

/-
  ## src/audio/muter.py — AudioMuter

  COM plumbing is abstracted: `pycawAvailable` models the import guard and
  `interfaceOk` whether `_get_volume_interface()` yields an interface;
  `systemMuted` is the external device mute state read and written through
  `volume.GetMute` / `volume.SetMute`.
-/

structure MuterState where
  pycawAvailable : Bool
  interfaceOk : Bool
  systemMuted : Bool
  wasMuted : Option Bool
  isMutedByUs : Bool
deriving Repr, DecidableEq

/-- `AudioMuter.mute`: stores the original mute state, mutes only if not
already muted.  Returns (result, new state, SetMute calls issued). -/
def muterMute (s : MuterState) : Bool × MuterState × List Bool :=
  if !s.pycawAvailable then (false, s, [])
  else if !s.interfaceOk then (false, s, [])
  else
    let s1 := { s with wasMuted := some s.systemMuted }
    if !s1.systemMuted then
      (true, { s1 with systemMuted := true, isMutedByUs := true }, [true])
    else (true, s1, [])

/-- `AudioMuter.restore`: only the component that muted may restore; unmutes
the device only when it was unmuted before our mute; clears the bookkeeping
flags; safe no-op (returning true) when we did not mute. -/
def muterRestore (s : MuterState) : Bool × MuterState × List Bool :=
  if !s.pycawAvailable then (false, s, [])
  else if !s.isMutedByUs then (true, s, [])
  else if !s.interfaceOk then (false, s, [])
  else if s.wasMuted = some false then
    (true, { s with systemMuted := false, isMutedByUs := false, wasMuted := none },
      [false])
  else
    (true, { s with isMutedByUs := false, wasMuted := none }, [])

/-- C8: after a single successful mute(), restore();restore() has the same
observable effect as a single restore(): the first restore returns the device
mute state to its pre-mute value and clears the muted-by-us flag, and the
second restore is a no-op returning true that issues no SetMute call and
leaves the state unchanged. -/
theorem mute_restore_restore_idempotent (s : MuterState)
    (hp : s.pycawAvailable = true) (hi : s.interfaceOk = true) :
    (muterMute s).1 = true
    ∧ (muterRestore (muterMute s).2.1).1 = true
    ∧ (muterRestore (muterMute s).2.1).2.1.systemMuted = s.systemMuted
    ∧ (muterRestore (muterMute s).2.1).2.1.isMutedByUs = false
    ∧ (muterRestore (muterRestore (muterMute s).2.1).2.1).1 = true
    ∧ (muterRestore (muterRestore (muterMute s).2.1).2.1).2.1
        = (muterRestore (muterMute s).2.1).2.1
    ∧ (muterRestore (muterRestore (muterMute s).2.1).2.1).2.2 = [] := by
  by_cases hm : s.systemMuted <;> by_cases hb : s.isMutedByUs <;>
    simp [muterMute, muterRestore, hp, hi, hm, hb]

/-- Witness for C8: a clean state with audio unmuted. -/
theorem mute_restore_restore_idempotent_witness :
    (muterMute
      { pycawAvailable := true, interfaceOk := true, systemMuted := false,
        wasMuted := none, isMutedByUs := false }).1 = true
    ∧ (muterRestore (muterMute
      { pycawAvailable := true, interfaceOk := true, systemMuted := false,
        wasMuted := none, isMutedByUs := false }).2.1).1 = true
    ∧ (muterRestore (muterMute
      { pycawAvailable := true, interfaceOk := true, systemMuted := false,
        wasMuted := none, isMutedByUs := false }).2.1).2.1.systemMuted = false
    ∧ (muterRestore (muterMute
      { pycawAvailable := true, interfaceOk := true, systemMuted := false,
        wasMuted := none, isMutedByUs := false }).2.1).2.1.isMutedByUs = false
    ∧ (muterRestore (muterRestore (muterMute
      { pycawAvailable := true, interfaceOk := true, systemMuted := false,
        wasMuted := none, isMutedByUs := false }).2.1).2.1).1 = true
    ∧ (muterRestore (muterRestore (muterMute
      { pycawAvailable := true, interfaceOk := true, systemMuted := false,
        wasMuted := none, isMutedByUs := false }).2.1).2.1).2.1
        = (muterRestore (muterMute
      { pycawAvailable := true, interfaceOk := true, systemMuted := false,
        wasMuted := none, isMutedByUs := false }).2.1).2.1
    ∧ (muterRestore (muterRestore (muterMute
      { pycawAvailable := true, interfaceOk := true, systemMuted := false,
        wasMuted := none, isMutedByUs := false }).2.1).2.1).2.2 = [] :=
  mute_restore_restore_idempotent
    { pycawAvailable := true, interfaceOk := true, systemMuted := false,
      wasMuted := none, isMutedByUs := false } rfl rfl

/-
  ## src/app.py — DitadoApp._process_audio_inner

  The collaborators are abstracted as per-attempt call outcomes; the function
  is modelled as a pure map from those outcomes to the run's effects.
-/

/-- `TranscriptionHistoryEntry.create(...)` fields used by the pipeline. -/
structure HistoryEntry where
  text : PyStr
  durationSeconds : ℚ
  language : PyStr
  enhanced : Bool
deriving Repr, DecidableEq

/-- Environment of one processing run: configuration and the scripted
outcomes of the remote calls. -/
structure PipelineEnv where
  transcriberPresent : Bool
  enhancerPresent : Bool
  enhanceText : Bool
  language : PyStr
  transcribeCalls : List (Except ApiError (PyStr × ℚ))
  enhanceCalls : List (Option PyStr)
  typeDirectOk : Bool
deriving Repr

/-- Observable effects of one `_process_audio_inner` run. -/
structure RunEffects where
  notifiedError : Bool
  transcribeAttempts : Nat
  transcribeDelays : List Nat
  enhanceAttempted : Bool
  enhanceAttempts : Nat
  typedText : Option PyStr
  clipboardFallback : Bool
  statsAdded : Option (ℚ × Nat)
  historyEntry : Option HistoryEntry
deriving Repr, DecidableEq

/-- `DitadoApp._process_audio_inner`. -/
def processAudioInner (env : PipelineEnv) (duration : ℚ) : RunEffects :=
  if !env.transcriberPresent then
    { notifiedError := true, transcribeAttempts := 0, transcribeDelays := [],
      enhanceAttempted := false, enhanceAttempts := 0, typedText := none,
      clipboardFallback := false, statsAdded := none, historyEntry := none }
  else
    let t := transcribeStage env.transcribeCalls
    match t.1 with
    | none =>
      -- all attempts raised TranscriptionError: last_error set, notify user
      { notifiedError := true, transcribeAttempts := t.2.1,
        transcribeDelays := t.2.2, enhanceAttempted := false,
        enhanceAttempts := 0, typedText := none, clipboardFallback := false,
        statsAdded := none, historyEntry := none }
    | some (text, minutes) =>
      if text.isEmpty then
        -- `if not text`: empty transcript; notify only if an earlier attempt
        -- raised (last_error is set)
        { notifiedError := decide (2 ≤ t.2.1), transcribeAttempts := t.2.1,
          transcribeDelays := t.2.2, enhanceAttempted := false,
          enhanceAttempts := 0, typedText := none, clipboardFallback := false,
          statsAdded := none, historyEntry := none }
      else
        let doEnhance := env.enhanceText && env.enhancerPresent
        let e := if doEnhance
          then retryRun env.enhanceCalls MAX_RETRIES RETRY_DELAYS
          else (none, 0, [])
        let finalText := match e.1 with
          | some enhanced => enhanced
          | none => text
        { notifiedError := false, transcribeAttempts := t.2.1,
          transcribeDelays := t.2.2, enhanceAttempted := doEnhance,
          enhanceAttempts := e.2.1, typedText := some finalText,
          clipboardFallback := !env.typeDirectOk,
          statsAdded := some (minutes, pyWordCount finalText),
          historyEntry := some
            { text := finalText, durationSeconds := duration,
              language := env.language,
              enhanced := env.enhanceText && env.enhancerPresent } }

theorem transcribe_error_toOption (e : ApiError) :
    (transcribe (Except.error e)).toOption = none := by
  cases e <;> rfl

theorem transcribeStage_all_errors {calls : List (Except ApiError (PyStr × ℚ))}
    (h : ∀ c ∈ calls, ∃ e, c = Except.error e) :
    transcribeStage calls = (none, 3, [1, 2]) := by
  apply retryRun_all_none_budget
  intro x hx
  rcases List.mem_map.mp hx with ⟨c, hc, rfl⟩
  rcases h c hc with ⟨e, rfl⟩
  exact transcribe_error_toOption e

theorem processAudioInner_attempts_cases (env : PipelineEnv) (duration : ℚ) :
    (processAudioInner env duration).transcribeAttempts = 0
    ∨ (processAudioInner env duration).transcribeAttempts
        = (transcribeStage env.transcribeCalls).2.1 := by
  unfold processAudioInner
  by_cases hP : env.transcriberPresent
  · simp only [hP, Bool.not_true, Bool.false_eq_true, if_false]
    split
    · right; rfl
    · split
      · right; rfl
      · right; rfl
  · simp [Bool.of_not_eq_true hP]

/-- Full effect description of a run whose transcription succeeds with
nonempty text while every enhancement attempt fails: the run completes with
the original transcript. -/
theorem processAudioInner_enhance_fail_spec (env : PipelineEnv) (duration : ℚ)
    (text : PyStr) (minutes : ℚ)
    (hP : env.transcriberPresent = true)
    (hE : env.enhanceText = true) (hEp : env.enhancerPresent = true)
    (ht : (transcribeStage env.transcribeCalls).1 = some (text, minutes))
    (hne : text ≠ [])
    (hfail : ∀ x ∈ env.enhanceCalls, x = none) :
    processAudioInner env duration =
      { notifiedError := false,
        transcribeAttempts := (transcribeStage env.transcribeCalls).2.1,
        transcribeDelays := (transcribeStage env.transcribeCalls).2.2,
        enhanceAttempted := true,
        enhanceAttempts := (retryRun env.enhanceCalls MAX_RETRIES RETRY_DELAYS).2.1,
        typedText := some text,
        clipboardFallback := !env.typeDirectOk,
        statsAdded := some (minutes, pyWordCount text),
        historyEntry := some
          { text := text, durationSeconds := duration,
            language := env.language, enhanced := true } } := by
  have henh : (retryRun env.enhanceCalls MAX_RETRIES RETRY_DELAYS).1 = none :=
    retryRun_all_none hfail _
  have hie : text.isEmpty = false := by
    cases text with
    | nil => exact absurd rfl hne
    | cons c cs => rfl
  unfold processAudioInner
  simp only [hP, Bool.not_true, Bool.false_eq_true, if_false]
  rw [ht]
  simp only [hie, Bool.false_eq_true, if_false, hE, hEp, Bool.and_self, if_true,
    henh]

/-- C5: each run attempts the transcription call at most 3 times; with
rate-limit failures on attempts 1 and 2 and success on attempt 3, exactly 3
attempts are made and exactly the delays 1s then 2s are slept between
attempts (none after the last); if all attempts fail the user is notified and
the run performs neither enhancement nor injection (nor stats/history). -/
theorem transcription_retry_budget :
    (∀ (env : PipelineEnv) (duration : ℚ),
        (processAudioInner env duration).transcribeAttempts ≤ 3)
    ∧ (∀ (x : PyStr × ℚ),
        transcribeStage [Except.error ApiError.rateLimit,
            Except.error ApiError.rateLimit, Except.ok x]
          = (some (pyStrip x.1, x.2 / 60), 3, [1, 2]))
    ∧ (∀ (env : PipelineEnv) (duration : ℚ),
        env.transcriberPresent = true →
        (∀ c ∈ env.transcribeCalls, ∃ e, c = Except.error e) →
        (processAudioInner env duration).notifiedError = true
        ∧ (processAudioInner env duration).transcribeAttempts = 3
        ∧ (processAudioInner env duration).transcribeDelays = [1, 2]
        ∧ (processAudioInner env duration).enhanceAttempted = false
        ∧ (processAudioInner env duration).enhanceAttempts = 0
        ∧ (processAudioInner env duration).typedText = none
        ∧ (processAudioInner env duration).clipboardFallback = false
        ∧ (processAudioInner env duration).statsAdded = none
        ∧ (processAudioInner env duration).historyEntry = none) := by
  refine ⟨?_, ?_, ?_⟩
  · intro env duration
    rcases processAudioInner_attempts_cases env duration with h | h
    · omega
    · rw [h]
      exact retryRun_attempts_le _ _ _
  · intro x
    obtain ⟨x1, x2⟩ := x
    rfl
  · intro env duration hP hall
    have hstage := transcribeStage_all_errors hall
    unfold processAudioInner
    simp only [hP, Bool.not_true, Bool.false_eq_true, if_false]
    rw [hstage]
    simp

/-- Witness for C5 at a concrete all-failing environment. -/
theorem transcription_retry_budget_witness :
    (processAudioInner
      { transcriberPresent := true, enhancerPresent := true, enhanceText := true,
        language := "en".data,
        transcribeCalls := [Except.error ApiError.rateLimit,
          Except.error ApiError.connection,
          Except.error (ApiError.api "boom".data)],
        enhanceCalls := [], typeDirectOk := true } 2).transcribeAttempts ≤ 3
    ∧ transcribeStage [Except.error ApiError.rateLimit,
        Except.error ApiError.rateLimit, Except.ok ("hi".data, 60)]
        = (some (pyStrip "hi".data, (60 : ℚ) / 60), 3, [1, 2])
    ∧ ((processAudioInner
      { transcriberPresent := true, enhancerPresent := true, enhanceText := true,
        language := "en".data,
        transcribeCalls := [Except.error ApiError.rateLimit,
          Except.error ApiError.connection,
          Except.error (ApiError.api "boom".data)],
        enhanceCalls := [], typeDirectOk := true } 2).notifiedError = true
    ∧ (processAudioInner
      { transcriberPresent := true, enhancerPresent := true, enhanceText := true,
        language := "en".data,
        transcribeCalls := [Except.error ApiError.rateLimit,
          Except.error ApiError.connection,
          Except.error (ApiError.api "boom".data)],
        enhanceCalls := [], typeDirectOk := true } 2).transcribeAttempts = 3
    ∧ (processAudioInner
      { transcriberPresent := true, enhancerPresent := true, enhanceText := true,
        language := "en".data,
        transcribeCalls := [Except.error ApiError.rateLimit,
          Except.error ApiError.connection,
          Except.error (ApiError.api "boom".data)],
        enhanceCalls := [], typeDirectOk := true } 2).typedText = none) :=
  ⟨transcription_retry_budget.1 _ 2,
   transcription_retry_budget.2.1 ("hi".data, 60),
   (transcription_retry_budget.2.2
      { transcriberPresent := true, enhancerPresent := true, enhanceText := true,
        language := "en".data,
        transcribeCalls := [Except.error ApiError.rateLimit,
          Except.error ApiError.connection,
          Except.error (ApiError.api "boom".data)],
        enhanceCalls := [], typeDirectOk := true } 2 rfl
      (by
        intro c hc
        fin_cases hc
        · exact ⟨ApiError.rateLimit, rfl⟩
        · exact ⟨ApiError.connection, rfl⟩
        · exact ⟨ApiError.api "boom".data, rfl⟩)).1,
   (transcription_retry_budget.2.2
      { transcriberPresent := true, enhancerPresent := true, enhanceText := true,
        language := "en".data,
        transcribeCalls := [Except.error ApiError.rateLimit,
          Except.error ApiError.connection,
          Except.error (ApiError.api "boom".data)],
        enhanceCalls := [], typeDirectOk := true } 2 rfl
      (by
        intro c hc
        fin_cases hc
        · exact ⟨ApiError.rateLimit, rfl⟩
        · exact ⟨ApiError.connection, rfl⟩
        · exact ⟨ApiError.api "boom".data, rfl⟩)).2.1,
   (transcription_retry_budget.2.2
      { transcriberPresent := true, enhancerPresent := true, enhanceText := true,
        language := "en".data,
        transcribeCalls := [Except.error ApiError.rateLimit,
          Except.error ApiError.connection,
          Except.error (ApiError.api "boom".data)],
        enhanceCalls := [], typeDirectOk := true } 2 rfl
      (by
        intro c hc
        fin_cases hc
        · exact ⟨ApiError.rateLimit, rfl⟩
        · exact ⟨ApiError.connection, rfl⟩
        · exact ⟨ApiError.api "boom".data, rfl⟩)).2.2.2.2.2.1⟩

/-- C4: if enhancement is enabled and configured and the enhancement call
fails on every retry attempt, the run is not aborted: the originally
transcribed text is what gets injected, and the run still completes through
injection, statistics update, and history recording. -/
theorem enhancement_failure_not_fatal (env : PipelineEnv) (duration : ℚ)
    (text : PyStr) (minutes : ℚ)
    (hP : env.transcriberPresent = true)
    (hE : env.enhanceText = true) (hEp : env.enhancerPresent = true)
    (ht : (transcribeStage env.transcribeCalls).1 = some (text, minutes))
    (hne : text ≠ [])
    (hfail : ∀ x ∈ env.enhanceCalls, x = none) :
    (processAudioInner env duration).typedText = some text
    ∧ (processAudioInner env duration).statsAdded
        = some (minutes, pyWordCount text)
    ∧ (processAudioInner env duration).historyEntry
        = some { text := text, durationSeconds := duration,
                 language := env.language, enhanced := true }
    ∧ (processAudioInner env duration).notifiedError = false := by
  rw [processAudioInner_enhance_fail_spec env duration text minutes
    hP hE hEp ht hne hfail]
  exact ⟨rfl, rfl, rfl, rfl⟩

/-- Witness for C4: transcription succeeds with "hello world", all three
enhancement attempts raise, the run injects and records the original text. -/
theorem enhancement_failure_not_fatal_witness :
    (processAudioInner
      { transcriberPresent := true, enhancerPresent := true, enhanceText := true,
        language := "en".data,
        transcribeCalls := [Except.ok ("hello world".data, 60)],
        enhanceCalls := [none, none, none], typeDirectOk := true } 2).typedText
      = some "hello world".data
    ∧ (processAudioInner
      { transcriberPresent := true, enhancerPresent := true, enhanceText := true,
        language := "en".data,
        transcribeCalls := [Except.ok ("hello world".data, 60)],
        enhanceCalls := [none, none, none], typeDirectOk := true } 2).statsAdded
      = some ((60 : ℚ) / 60, pyWordCount "hello world".data)
    ∧ (processAudioInner
      { transcriberPresent := true, enhancerPresent := true, enhanceText := true,
        language := "en".data,
        transcribeCalls := [Except.ok ("hello world".data, 60)],
        enhanceCalls := [none, none, none], typeDirectOk := true } 2).historyEntry
      = some { text := "hello world".data, durationSeconds := 2,
               language := "en".data, enhanced := true }
    ∧ (processAudioInner
      { transcriberPresent := true, enhancerPresent := true, enhanceText := true,
        language := "en".data,
        transcribeCalls := [Except.ok ("hello world".data, 60)],
        enhanceCalls := [none, none, none], typeDirectOk := true } 2).notifiedError
      = false :=
  enhancement_failure_not_fatal
    { transcriberPresent := true, enhancerPresent := true, enhanceText := true,
      language := "en".data,
      transcribeCalls := [Except.ok ("hello world".data, 60)],
      enhanceCalls := [none, none, none], typeDirectOk := true } 2
    "hello world".data ((60 : ℚ) / 60) rfl rfl rfl rfl (by decide)
    (by intro x hx; fin_cases hx <;> rfl)

/-- C7: whenever a run records a history entry, the entry's `enhanced` flag
equals whether enhancement was configured (enhance_text enabled and an
enhancer present) — not whether enhancement succeeded; in particular a run
whose enhancement failed on every attempt and fell back to the original
transcript is still recorded with `enhanced = true`. -/
theorem history_enhanced_flag_from_config :
    (∀ (env : PipelineEnv) (duration : ℚ) (e : HistoryEntry),
        (processAudioInner env duration).historyEntry = some e →
        e.enhanced = (env.enhanceText && env.enhancerPresent))
    ∧ (∀ (env : PipelineEnv) (duration : ℚ) (text : PyStr) (minutes : ℚ),
        env.transcriberPresent = true → env.enhanceText = true →
        env.enhancerPresent = true →
        (transcribeStage env.transcribeCalls).1 = some (text, minutes) →
        text ≠ [] → (∀ x ∈ env.enhanceCalls, x = none) →
        ∃ e, (processAudioInner env duration).historyEntry = some e
          ∧ e.enhanced = true ∧ e.text = text) := by
  constructor
  · intro env duration e he
    unfold processAudioInner at he
    by_cases hP : env.transcriberPresent
    · simp only [hP, Bool.not_true, Bool.false_eq_true, if_false] at he
      split at he
      · simp at he
      · split at he
        · simp at he
        · simp only [Option.some.injEq] at he
          rw [← he]
    · simp [Bool.of_not_eq_true hP] at he
  · intro env duration text minutes hP hE hEp ht hne hfail
    refine ⟨{ text := text, durationSeconds := duration,
              language := env.language, enhanced := true }, ?_, rfl, rfl⟩
    rw [processAudioInner_enhance_fail_spec env duration text minutes
      hP hE hEp ht hne hfail]

/-- Witness for C7 at the same concrete failed-enhancement run. -/
theorem history_enhanced_flag_from_config_witness :
    (HistoryEntry.enhanced
      { text := "hello world".data, durationSeconds := 2,
        language := "en".data, enhanced := true } = true)
    ∧ ∃ e, (processAudioInner
      { transcriberPresent := true, enhancerPresent := true, enhanceText := true,
        language := "en".data,
        transcribeCalls := [Except.ok ("hello world".data, 60)],
        enhanceCalls := [none, none, none], typeDirectOk := true } 2).historyEntry
        = some e ∧ e.enhanced = true ∧ e.text = "hello world".data := by
  constructor
  · have hgen := history_enhanced_flag_from_config.1
      { transcriberPresent := true, enhancerPresent := true, enhanceText := true,
        language := "en".data,
        transcribeCalls := [Except.ok ("hello world".data, 60)],
        enhanceCalls := [none, none, none], typeDirectOk := true } 2
      { text := "hello world".data, durationSeconds := 2,
        language := "en".data, enhanced := true } (by decide)
    simpa using hgen
  · exact history_enhanced_flag_from_config.2
      { transcriberPresent := true, enhancerPresent := true, enhanceText := true,
        language := "en".data,
        transcribeCalls := [Except.ok ("hello world".data, 60)],
        enhanceCalls := [none, none, none], typeDirectOk := true } 2
      "hello world".data ((60 : ℚ) / 60) rfl rfl rfl rfl (by decide)
      (by intro x hx; fin_cases hx <;> rfl)

/-
  ## src/app.py — DitadoApp._on_hotkey_release

  The deactivation-edge handler: cancels the auto-stop timer, restores system
  audio, plays the end cue, and — behind the `_is_processing` single-flight
  guard — stops the recorder and hands the payload to a freshly spawned
  background worker.
-/

/-- The app state accessed by the deactivation-edge handler. -/
structure AppState where
  enabled : Bool
  isProcessing : Bool
  muteSystemAudio : Bool
  overlayVisible : Bool
  timerActive : Bool
  recorder : RecorderState
  muter : MuterState
deriving Repr, DecidableEq

/-- Observable effects of one `_on_hotkey_release` invocation. -/
structure ReleaseEffects where
  timerCancelled : Bool
  restoreCalled : Bool
  endSoundPlayed : Bool
  recorderStops : Nat
  workerSpawned : Option (List Int × ℚ)
deriving Repr, DecidableEq

/-- `DitadoApp._on_hotkey_release`. -/
def onHotkeyRelease (s : AppState) : AppState × ReleaseEffects :=
  let timerCancelled := s.timerActive
  let s1 := { s with timerActive := false }
  let s2 := if s1.muteSystemAudio
    then { s1 with muter := (muterRestore s1.muter).2.1 } else s1
  let eff0 : ReleaseEffects :=
    { timerCancelled := timerCancelled, restoreCalled := s.muteSystemAudio,
      endSoundPlayed := true, recorderStops := 0, workerSpawned := none }
  if !s2.enabled || !s2.recorder.recording then (s2, eff0)
  else if s2.isProcessing then (s2, eff0)
  else
    let s3 := { s2 with isProcessing := true }
    let stopRes := recorderStop s3.recorder
    let s4 := { s3 with recorder := stopRes.2 }
    let eff1 := { eff0 with recorderStops := 1 }
    let duration := recorderDuration s4.recorder
    match stopRes.1 with
    | none => ({ s4 with overlayVisible := false, isProcessing := false }, eff1)
    | some audio => (s4, { eff1 with workerSpawned := some (audio, duration) })

/-- 0/1 count of workers spawned by a release. -/
def spawnCount (e : ReleaseEffects) : Nat :=
  match e.workerSpawned with
  | none => 0
  | some _ => 1

/-- Transcription API calls caused by one deactivation edge, given the
scripted environment of the worker it may spawn: transcription happens only
inside `_process_audio` → `_process_audio_inner`. -/
def releaseTranscribeCalls (s : AppState) (env : PipelineEnv) : Nat :=
  match (onHotkeyRelease s).2.workerSpawned with
  | none => 0
  | some p => (processAudioInner env p.2).transcribeAttempts

theorem onHotkeyRelease_guard (s : AppState) (h : s.isProcessing = true) :
    (onHotkeyRelease s).2.recorderStops = 0
    ∧ (onHotkeyRelease s).2.workerSpawned = none
    ∧ (onHotkeyRelease s).1.isProcessing = true
    ∧ (onHotkeyRelease s).2.endSoundPlayed = true
    ∧ (onHotkeyRelease s).2.restoreCalled = s.muteSystemAudio
    ∧ (onHotkeyRelease s).2.timerCancelled = s.timerActive := by
  unfold onHotkeyRelease
  by_cases hm : s.muteSystemAudio
  · simp only [hm, if_true]
    by_cases hc : (!s.enabled || !s.recorder.recording) = true
    · simp [hc, h]
    · simp [hc, h]
  · simp only [hm, Bool.false_eq_true, if_false]
    by_cases hc : (!s.enabled || !s.recorder.recording) = true
    · simp [hc, h]
    · simp [hc, h]

theorem recorderStop_state_cases (r : RecorderState) :
    (recorderStop r).2.recording = false ∨ (recorderStop r).1 = none := by
  unfold recorderStop
  split
  · right; rfl
  · left
    dsimp only
    split
    · rfl
    · split
      · rfl
      · split <;> rfl

theorem onHotkeyRelease_spawn_state (s : AppState) (p : List Int × ℚ)
    (h : (onHotkeyRelease s).2.workerSpawned = some p) :
    (onHotkeyRelease s).1.recorder.recording = false := by
  unfold onHotkeyRelease at h ⊢
  by_cases hm : s.muteSystemAudio <;>
    simp only [hm, if_true, Bool.false_eq_true, if_false] at h ⊢ <;>
  · by_cases hc : (!s.enabled || !s.recorder.recording) = true
    · simp [hc] at h
    · by_cases hp : s.isProcessing
      · simp [hc, hp] at h
      · cases hsr : (recorderStop s.recorder).1 with
        | none => simp [hc, hp, hsr] at h
        | some audio =>
          rcases recorderStop_state_cases s.recorder with hrec | hnone
          · simp [hc, hp, hsr, hrec]
          · rw [hnone] at hsr; exact absurd hsr (by simp)

theorem onHotkeyRelease_not_recording (s : AppState)
    (h : s.recorder.recording = false) :
    (onHotkeyRelease s).2.workerSpawned = none := by
  unfold onHotkeyRelease
  by_cases hm : s.muteSystemAudio <;> simp [hm, h]

theorem onHotkeyRelease_stop_none (s : AppState)
    (h : (recorderStop s.recorder).1 = none) :
    (onHotkeyRelease s).2.workerSpawned = none := by
  unfold onHotkeyRelease
  by_cases hm : s.muteSystemAudio <;>
    simp only [hm, if_true, Bool.false_eq_true, if_false] <;>
  · by_cases hc : (!s.enabled || !s.recorder.recording) = true
    · simp [hc]
    · by_cases hp : s.isProcessing
      · simp [hc, hp]
      · simp [hc, hp, h]

/-- C1 counterexample: the original claim says a deactivation edge handled
while the guard is held is dropped "without side effects".  At this concrete
state — guard held, recorder still recording, mute configured, auto-stop
timer pending, system audio muted by us — the dropped edge (no recorder stop,
no worker spawned, guard still held) nevertheless replays the end-of-recording
cue, cancels the timer, and re-invokes `muter.restore()`, which observably
unmutes the system audio device (`systemMuted` flips from true to false):
these pre-guard effects run on every edge, before the `_is_processing` check.
-/
theorem guarded_edge_side_effects_counterexample :
    (onHotkeyRelease
      { enabled := true, isProcessing := true, muteSystemAudio := true,
        overlayVisible := true, timerActive := true,
        recorder := { recording := true, audioData := [[5, 5]], errorMsg := none },
        muter := { pycawAvailable := true, interfaceOk := true,
                   systemMuted := true, wasMuted := some false,
                   isMutedByUs := true } }).2.workerSpawned = none
    ∧ (onHotkeyRelease
      { enabled := true, isProcessing := true, muteSystemAudio := true,
        overlayVisible := true, timerActive := true,
        recorder := { recording := true, audioData := [[5, 5]], errorMsg := none },
        muter := { pycawAvailable := true, interfaceOk := true,
                   systemMuted := true, wasMuted := some false,
                   isMutedByUs := true } }).2.recorderStops = 0
    ∧ (onHotkeyRelease
      { enabled := true, isProcessing := true, muteSystemAudio := true,
        overlayVisible := true, timerActive := true,
        recorder := { recording := true, audioData := [[5, 5]], errorMsg := none },
        muter := { pycawAvailable := true, interfaceOk := true,
                   systemMuted := true, wasMuted := some false,
                   isMutedByUs := true } }).1.isProcessing = true
    ∧ (onHotkeyRelease
      { enabled := true, isProcessing := true, muteSystemAudio := true,
        overlayVisible := true, timerActive := true,
        recorder := { recording := true, audioData := [[5, 5]], errorMsg := none },
        muter := { pycawAvailable := true, interfaceOk := true,
                   systemMuted := true, wasMuted := some false,
                   isMutedByUs := true } }).2.endSoundPlayed = true
    ∧ (onHotkeyRelease
      { enabled := true, isProcessing := true, muteSystemAudio := true,
        overlayVisible := true, timerActive := true,
        recorder := { recording := true, audioData := [[5, 5]], errorMsg := none },
        muter := { pycawAvailable := true, interfaceOk := true,
                   systemMuted := true, wasMuted := some false,
                   isMutedByUs := true } }).2.restoreCalled = true
    ∧ (onHotkeyRelease
      { enabled := true, isProcessing := true, muteSystemAudio := true,
        overlayVisible := true, timerActive := true,
        recorder := { recording := true, audioData := [[5, 5]], errorMsg := none },
        muter := { pycawAvailable := true, interfaceOk := true,
                   systemMuted := true, wasMuted := some false,
                   isMutedByUs := true } }).2.timerCancelled = true
    ∧ (onHotkeyRelease
      { enabled := true, isProcessing := true, muteSystemAudio := true,
        overlayVisible := true, timerActive := true,
        recorder := { recording := true, audioData := [[5, 5]], errorMsg := none },
        muter := { pycawAvailable := true, interfaceOk := true,
                   systemMuted := true, wasMuted := some false,
                   isMutedByUs := true } }).1.muter.systemMuted = false := by
  refine ⟨rfl, rfl, rfl, rfl, rfl, rfl, rfl⟩

/-- C1 (amended): while a previous run's processing guard is held, a
deactivation edge is dropped without pipeline side effects — it does not stop
the recorder a second time, does not spawn a second processing worker, and the
guard stays held (the edge is not queued) — but the handler's pre-guard
effects still run on the dropped edge: the end-of-recording cue is replayed,
`muter.restore()` is re-invoked whenever mute is configured, and a pending
auto-stop timer is cancelled; in general two consecutive deactivation edges
spawn at most one processing worker, so at most one pipeline run executes to
completion. -/
theorem second_deactivation_edge_dropped :
    (∀ s : AppState, s.isProcessing = true →
        (onHotkeyRelease s).2.recorderStops = 0
        ∧ (onHotkeyRelease s).2.workerSpawned = none
        ∧ (onHotkeyRelease s).1.isProcessing = true
        ∧ (onHotkeyRelease s).2.endSoundPlayed = true
        ∧ (onHotkeyRelease s).2.restoreCalled = s.muteSystemAudio
        ∧ (onHotkeyRelease s).2.timerCancelled = s.timerActive)
    ∧ (∀ s : AppState,
        spawnCount (onHotkeyRelease s).2
          + spawnCount (onHotkeyRelease (onHotkeyRelease s).1).2 ≤ 1) := by
  constructor
  · exact fun s h => onHotkeyRelease_guard s h
  · intro s
    cases hw : (onHotkeyRelease s).2.workerSpawned with
    | none =>
      have h2 : spawnCount (onHotkeyRelease s).2 = 0 := by simp [spawnCount, hw]
      have h3 : spawnCount (onHotkeyRelease (onHotkeyRelease s).1).2 ≤ 1 := by
        cases hw2 : (onHotkeyRelease (onHotkeyRelease s).1).2.workerSpawned <;>
          simp [spawnCount, hw2]
      omega
    | some p =>
      have hrec : (onHotkeyRelease s).1.recorder.recording = false :=
        onHotkeyRelease_spawn_state s p hw
      have h2 : (onHotkeyRelease (onHotkeyRelease s).1).2.workerSpawned = none :=
        onHotkeyRelease_not_recording _ hrec
      simp [spawnCount, hw, h2]

/-- Witness for C1 at a concrete state whose guard is held. -/
theorem second_deactivation_edge_dropped_witness :
    ((onHotkeyRelease
      { enabled := true, isProcessing := true, muteSystemAudio := false,
        overlayVisible := true, timerActive := false,
        recorder := { recording := true, audioData := [[5, 5]], errorMsg := none },
        muter := { pycawAvailable := true, interfaceOk := true,
                   systemMuted := false, wasMuted := none,
                   isMutedByUs := false } }).2.recorderStops = 0
    ∧ (onHotkeyRelease
      { enabled := true, isProcessing := true, muteSystemAudio := false,
        overlayVisible := true, timerActive := false,
        recorder := { recording := true, audioData := [[5, 5]], errorMsg := none },
        muter := { pycawAvailable := true, interfaceOk := true,
                   systemMuted := false, wasMuted := none,
                   isMutedByUs := false } }).2.workerSpawned = none
    ∧ (onHotkeyRelease
      { enabled := true, isProcessing := true, muteSystemAudio := false,
        overlayVisible := true, timerActive := false,
        recorder := { recording := true, audioData := [[5, 5]], errorMsg := none },
        muter := { pycawAvailable := true, interfaceOk := true,
                   systemMuted := false, wasMuted := none,
                   isMutedByUs := false } }).1.isProcessing = true
    ∧ (onHotkeyRelease
      { enabled := true, isProcessing := true, muteSystemAudio := false,
        overlayVisible := true, timerActive := false,
        recorder := { recording := true, audioData := [[5, 5]], errorMsg := none },
        muter := { pycawAvailable := true, interfaceOk := true,
                   systemMuted := false, wasMuted := none,
                   isMutedByUs := false } }).2.endSoundPlayed = true
    ∧ (onHotkeyRelease
      { enabled := true, isProcessing := true, muteSystemAudio := false,
        overlayVisible := true, timerActive := false,
        recorder := { recording := true, audioData := [[5, 5]], errorMsg := none },
        muter := { pycawAvailable := true, interfaceOk := true,
                   systemMuted := false, wasMuted := none,
                   isMutedByUs := false } }).2.restoreCalled = false
    ∧ (onHotkeyRelease
      { enabled := true, isProcessing := true, muteSystemAudio := false,
        overlayVisible := true, timerActive := false,
        recorder := { recording := true, audioData := [[5, 5]], errorMsg := none },
        muter := { pycawAvailable := true, interfaceOk := true,
                   systemMuted := false, wasMuted := none,
                   isMutedByUs := false } }).2.timerCancelled = false)
    ∧ spawnCount (onHotkeyRelease
      { enabled := true, isProcessing := true, muteSystemAudio := false,
        overlayVisible := true, timerActive := false,
        recorder := { recording := true, audioData := [[5, 5]], errorMsg := none },
        muter := { pycawAvailable := true, interfaceOk := true,
                   systemMuted := false, wasMuted := none,
                   isMutedByUs := false } }).2
        + spawnCount (onHotkeyRelease (onHotkeyRelease
      { enabled := true, isProcessing := true, muteSystemAudio := false,
        overlayVisible := true, timerActive := false,
        recorder := { recording := true, audioData := [[5, 5]], errorMsg := none },
        muter := { pycawAvailable := true, interfaceOk := true,
                   systemMuted := false, wasMuted := none,
                   isMutedByUs := false } }).1).2 ≤ 1 :=
  ⟨second_deactivation_edge_dropped.1
      { enabled := true, isProcessing := true, muteSystemAudio := false,
        overlayVisible := true, timerActive := false,
        recorder := { recording := true, audioData := [[5, 5]], errorMsg := none },
        muter := { pycawAvailable := true, interfaceOk := true,
                   systemMuted := false, wasMuted := none,
                   isMutedByUs := false } } rfl,
   second_deactivation_edge_dropped.2
      { enabled := true, isProcessing := true, muteSystemAudio := false,
        overlayVisible := true, timerActive := false,
        recorder := { recording := true, audioData := [[5, 5]], errorMsg := none },
        muter := { pycawAvailable := true, interfaceOk := true,
                   systemMuted := false, wasMuted := none,
                   isMutedByUs := false } }⟩

/-- C6: a recording whose accumulated duration is below 0.5s, or whose
average signal level is below the fixed noise floor, makes `stop()` return no
payload, and the deactivation edge then spawns no worker and causes no
transcription call at all. -/
theorem short_or_silent_recording_not_transcribed (s : AppState)
    (env : PipelineEnv)
    (h : recorderDuration s.recorder < 1 / 2
        ∨ avgLevel s.recorder.audioData.flatten < MIN_AUDIO_LEVEL) :
    (recorderStop s.recorder).1 = none
    ∧ (onHotkeyRelease s).2.workerSpawned = none
    ∧ releaseTranscribeCalls s env = 0 := by
  have hstop : (recorderStop s.recorder).1 = none := by
    rcases h with h | h
    · exact recorderStop_short _ h
    · exact recorderStop_silent _ h
  have hspawn : (onHotkeyRelease s).2.workerSpawned = none :=
    onHotkeyRelease_stop_none s hstop
  refine ⟨hstop, hspawn, ?_⟩
  unfold releaseTranscribeCalls
  rw [hspawn]

/-- Witness for C6: a 3-sample (0.1875ms) recording in progress. -/
theorem short_or_silent_recording_not_transcribed_witness :
    (recorderStop
      { recording := true, audioData := [[90, -90, 90]],
        errorMsg := none }).1 = none
    ∧ (onHotkeyRelease
      { enabled := true, isProcessing := false, muteSystemAudio := false,
        overlayVisible := true, timerActive := true,
        recorder := { recording := true, audioData := [[90, -90, 90]], errorMsg := none },
        muter := { pycawAvailable := true, interfaceOk := true,
                   systemMuted := false, wasMuted := none,
                   isMutedByUs := false } }).2.workerSpawned = none
    ∧ releaseTranscribeCalls
      { enabled := true, isProcessing := false, muteSystemAudio := false,
        overlayVisible := true, timerActive := true,
        recorder := { recording := true, audioData := [[90, -90, 90]], errorMsg := none },
        muter := { pycawAvailable := true, interfaceOk := true,
                   systemMuted := false, wasMuted := none,
                   isMutedByUs := false } }
      { transcriberPresent := true, enhancerPresent := false,
        enhanceText := false, language := "en".data,
        transcribeCalls := [Except.ok ("hi".data, 60)],
        enhanceCalls := [], typeDirectOk := true } = 0 :=
  short_or_silent_recording_not_transcribed
    { enabled := true, isProcessing := false, muteSystemAudio := false,
      overlayVisible := true, timerActive := true,
      recorder := { recording := true, audioData := [[90, -90, 90]], errorMsg := none },
      muter := { pycawAvailable := true, interfaceOk := true,
                 systemMuted := false, wasMuted := none,
                 isMutedByUs := false } }
    { transcriberPresent := true, enhancerPresent := false,
      enhanceText := false, language := "en".data,
      transcribeCalls := [Except.ok ("hi".data, 60)],
      enhanceCalls := [], typeDirectOk := true }
    (Or.inl (by norm_num [recorderDuration, SAMPLE_RATE]))
